import Mathlib

/-!
# Verification of ghostmail-cli against its specification

A shallow embedding, in Lean 4, of the locally authored logic of the
`ghostmail-cli` repository (a Go command-line email client): the IMAP reader
(`internal/email/reader.go`), the SMTP sender and quoted-reply formatting
(`internal/email/sender.go`), the reply command's recipient and threading
logic (`internal/cli/reply.go`), and the send command's validation
(`internal/cli/send.go`).

Conventions of the embedding:
* Go strings are modelled as Lean `String` / `List Char`, working at the
  level of characters (runes); Go byte-level operations (`len`, slicing)
  coincide with this model on ASCII data.
* Fallible Go calls return `Except Err α`; a Go runtime panic is modelled
  by the `GoResult.crash` constructor (or `Except.error` where the function
  otherwise cannot fail).
* The third-party IMAP/SMTP libraries are modelled as records of abstract
  result-providing functions (`ImapServer`, the `dialAndSend` parameter);
  the embedding of each repository function performs exactly the library
  calls the Go source performs, recording them in a `CallEvt` trace.
-/

namespace Ghostmail

/-- Go `error` values are modelled as their message strings. -/
abbrev Err := String

/-- Outcome of a Go function returning `(T, error)`: either a value, a
returned error, or a runtime panic (`crash`). -/
inductive GoResult (α : Type) where
  | ok (val : α)
  | err (e : Err)
  | crash (msg : Err)
deriving Repr

/-- One call into an underlying protocol library, as recorded in a trace. -/
inductive CallEvt where
  | dial
  | login
  | selectMb (name : String)
  | search
  | fetch (uids : List Nat)
deriving Repr, DecidableEq

/-! ## String helpers modelling Go's `strings` package (character level) -/

/-- Go `strings.Split(s, sep)` for a one-character separator: the list of
(possibly empty) runs between occurrences of `sep`; always non-empty. -/
def splitOnChar (sep : Char) : List Char → List (List Char)
  | [] => [[]]
  | c :: rest =>
    match splitOnChar sep rest with
    | r :: rs => if c = sep then [] :: r :: rs else (c :: r) :: rs
    | [] => [[]]

/-- Go `strings.Join(xs, sep)`: concatenation with `sep` between elements. -/
def joinWith (sep : List Char) : List (List Char) → List Char
  | [] => []
  | [x] => x
  | x :: y :: ys => x ++ sep ++ joinWith sep (y :: ys)

/-- Go `strings.TrimRight(s, cutset)` for the one-character cutset `c`:
removes all trailing occurrences of `c`. -/
def trimRightChar (c : Char) (s : List Char) : List Char :=
  (s.reverse.dropWhile (· = c)).reverse

/-- Go `unicode.IsSpace`: the White_Space code points. -/
def goIsSpace (c : Char) : Bool :=
  c = '\t' ∨ c = '\n' ∨ c = '\u000b' ∨ c = '\u000c' ∨ c = '\r' ∨ c = ' ' ∨
  c = '\u0085' ∨ c = '\u00a0' ∨ c = '\u1680' ∨
  ('\u2000' ≤ c ∧ c ≤ '\u200a') ∨ c = '\u2028' ∨ c = '\u2029' ∨
  c = '\u202f' ∨ c = '\u205f' ∨ c = '\u3000'

/-- Go `strings.TrimSpace`: trim `unicode.IsSpace` characters on both ends. -/
def trimSpaceL (s : List Char) : List Char :=
  ((s.dropWhile goIsSpace).reverse.dropWhile goIsSpace).reverse

/-- The character class of Go's regexp `\s`, i.e. `[\t\n\f\r ]`
(note: the vertical tab is *not* in regexp `\s`). -/
def goIsRegexSpace (c : Char) : Bool :=
  c = '\t' ∨ c = '\n' ∨ c = '\x0c' ∨ c = '\r' ∨ c = ' '

/-- Go `strings.HasPrefix` (byte-prefix, equivalently character-prefix). -/
def goHasPrefix (s pre : String) : Bool :=
  pre.data.isPrefixOf s.data

/-- Go `strings.ToLower`, character by character (`unicode.ToLower` per
rune; `Char.toLower` realises the mapping on the ASCII range the
repository's comparisons rely on). -/
def goToLower (s : String) : String :=
  String.mk (s.data.map Char.toLower)

/-- Index of the last occurrence of `c` in `s` (Go `strings.LastIndex` with a
one-character needle, at character level). -/
def lastIndexOfChar (c : Char) (s : List Char) : Option Nat :=
  (s.reverse.findIdx? (· = c)).map (fun k => s.length - 1 - k)

/-! ## Configuration (`internal/config/config.go`) -/

/-- `config.SMTPConfig`. `From` is named `FromAddr` (`from` is reserved). -/
structure SMTPConfig where
  Host : String := ""
  Port : Int := 587
  Username : String := ""
  Password : String := ""
  UseTLS : Bool := false
  StartTLS : Bool := true
  FromAddr : String := ""
deriving Repr, DecidableEq

/-- `config.IMAPConfig`. -/
structure IMAPConfig where
  Host : String := ""
  Port : Int := 993
  Username : String := ""
  Password : String := ""
  UseTLS : Bool := true
  Mailbox : String := "INBOX"
deriving Repr, DecidableEq

/-- `Config.ValidateSMTP`: host, username and password must be non-empty. -/
def ValidateSMTP (c : SMTPConfig) : Except Err Unit :=
  if c.Host = "" then .error "SMTP host is required (set GHOSTMAIL_SMTP_HOST)"
  else if c.Username = "" then .error "SMTP username is required (set GHOSTMAIL_SMTP_USERNAME)"
  else if c.Password = "" then .error "SMTP password is required (set GHOSTMAIL_SMTP_PASSWORD)"
  else .ok ()

/-! ## Message data model (`pkg/email/types.go` and go-imap types) -/

/-- A Go `time.Time` value, to the precision the repository uses: the reply
command formats dates with layout `"2006-01-02 15:04"`. -/
structure GoTime where
  year : Nat := 0
  month : Nat := 0
  day : Nat := 0
  hour : Nat := 0
  minute : Nat := 0
deriving Repr, DecidableEq

/-- Zero-pad a numeral to two digits (as Go's `05`-style layout fields do). -/
def pad2 (n : Nat) : String :=
  if n < 10 then "0" ++ toString n else toString n

/-- Zero-pad a numeral to four digits (Go's `2006` year layout field). -/
def pad4 (n : Nat) : String :=
  if n < 10 then "000" ++ toString n
  else if n < 100 then "00" ++ toString n
  else if n < 1000 then "0" ++ toString n
  else toString n

/-- Go `t.Format("2006-01-02 15:04")`. -/
def GoTime.formatYmdHm (t : GoTime) : String :=
  pad4 t.year ++ "-" ++ pad2 t.month ++ "-" ++ pad2 t.day ++ " " ++
    pad2 t.hour ++ ":" ++ pad2 t.minute

/-- `emailtypes.Message` (`pkg/email/types.go`); the `Attachments` field is
never populated by the code under verification and is omitted. `From` is
named `FromAddr` (`from` is reserved in Lean). -/
structure Message where
  UID : Nat := 0
  SeqNum : Nat := 0
  MessageID : String := ""
  Subject : String := ""
  FromAddr : String := ""
  To : List String := []
  CC : List String := []
  BCC : List String := []
  Date : GoTime := {}
  Body : String := ""
  BodyPreview : String := ""
  Flags : List String := []
deriving Repr, DecidableEq

/-- `imap.Address` (the fields `formatAddress` reads). -/
structure ImapAddress where
  PersonalName : String := ""
  MailboxName : String := ""
  HostName : String := ""
deriving Repr, DecidableEq

/-- `imap.Envelope` (the fields `convertMessage` reads). Go address slices
hold pointers, so entries are `Option ImapAddress` (`none` = nil pointer). -/
structure Envelope where
  Subject : String := ""
  Date : GoTime := {}
  FromAddrs : List (Option ImapAddress) := []
  To : List (Option ImapAddress) := []
  Cc : List (Option ImapAddress) := []
  Bcc : List (Option ImapAddress) := []
deriving Repr, DecidableEq

/-- One `mr.NextPart()` outcome inside `extractBody`'s loop, before the
implicit final `io.EOF`:
* `errPart e`: `NextPart` returned a non-EOF error (the Go code `continue`s);
* `inlinePart ct data`: a part with a `*mail.InlineHeader` whose
  `ContentType()` is `ct`; `data` is what `io.ReadAll(part.Body)` yielded
  (the Go code discards `io.ReadAll`'s error with `_`);
* `otherPart`: a part whose header is not a `*mail.InlineHeader`
  (the `switch` ignores it). -/
inductive PartEvt where
  | errPart (e : Err)
  | inlinePart (contentType : String) (data : String)
  | otherPart
deriving Repr, DecidableEq

/-- The raw message body handed to `extractBody`, as seen through
`mail.CreateReader`:
* `unparsable raw`: `CreateReader` failed; the fallback `io.ReadAll` on the
  raw reader yields `raw` (either the raw bytes or a read error);
* `parsed messageID parts`: `CreateReader` succeeded; `messageID` is the
  `Message-Id` header (Go's `Header.Get` is case-insensitive, so the two
  lookups `"Message-Id"`/`"Message-ID"` in the source coincide), and `parts`
  are the successive `NextPart` outcomes. -/
inductive BodySection where
  | unparsable (raw : Except Err String)
  | parsed (messageID : String) (parts : List PartEvt)
deriving Repr

/-- An `*imap.Message` as delivered by `UidFetch` over the channel. `Body` is
`msg.GetBody(section)` (`none` = no body section literal). -/
structure ImapMsg where
  Uid : Nat := 0
  SeqNum : Nat := 0
  Flags : List String := []
  Envelope : Option Envelope := none
  Body : Option BodySection := none
deriving Repr

/-- The behaviour of the remote IMAP server / go-imap client library, as a
record of abstract result-providing functions. `uidSearch` takes the
`unreadOnly` flag (the only thing that varies in the search criteria);
`uidFetch` takes the requested UID set and yields the messages delivered on
the channel together with the final error received on `done`. -/
structure ImapServer where
  dial : Except Err Unit
  login : Except Err Unit
  selectMb : String → Except Err Nat
  uidSearch : Bool → Except Err (List Nat)
  uidFetch : List Nat → List ImapMsg × Option Err

/-! ## `stripHTML` (`internal/email/reader.go` lines 294-323)

`stripHTML` begins with
`regexp.MustCompile("(?i)<(script|style)[^>]*>[\\s\\S]*?</\\1>")`.
Go's `regexp` package implements RE2, which has no backreferences: in
`regexp/syntax`, a backslash followed by a single non-zero digit that is not
followed by a further octal digit is parsed as a backreference escape and
rejected with `ErrInvalidEscape`, so `MustCompile` panics. The panic is
modelled as an `Except.error` result of `stripHTML`; the remaining cascade
of substitutions (which Go never reaches) is embedded faithfully after the
compilation check. -/

/-- The pattern of `scriptRe` in the Go source (a raw-string literal there). -/
def scriptStylePattern : String := "(?i)<(script|style)[^>]*>[\\s\\S]*?</\\1>"

/-- Whether the next character exists and is an octal digit (`regexp/syntax`
accepts `\1` only when continued by octal digits, as an octal escape). -/
def nextIsOctal : List Char → Bool
  | d :: _ => decide ('0' ≤ d ∧ d ≤ '7')
  | [] => false

/-- Scan a pattern for a backreference escape, i.e. a backslash followed by a
single digit `1`-`7` not continued by an octal digit — exactly the escapes
Go's `regexp/syntax` rejects with "invalid escape sequence". Other
backslash-escape pairs are skipped whole. -/
def hasBackrefEscape : List Char → Bool
  | '\\' :: c :: rest =>
    if ('1' ≤ c ∧ c ≤ '7') ∧ nextIsOctal rest = false then true
    else hasBackrefEscape rest
  | _ :: rest => hasBackrefEscape rest
  | [] => false

/-- The message of the panic raised by
`regexp.MustCompile(scriptStylePattern)`. -/
def regexPanicMsg : Err :=
  "regexp: Compile((?i)<(script|style)[^>]*>[\\s\\S]*?</\\1>): error parsing regexp: invalid escape sequence: \\1"

/-- Generic left-to-right replacement scanner: at each position, `step` may
match a prefix, yielding the replacement to emit and the rest of the input
after the match (`hstep` certifies that a match consumes at least one
character). This is the semantics shared by Go's
`Regexp.ReplaceAllString` (for the patterns below, which never match the
empty string) and `strings.ReplaceAll`: non-overlapping matches, scanning
resumes after each match. -/
def scanWith (step : List Char → Option (List Char × List Char))
    (hstep : ∀ s out rest, step s = some (out, rest) → rest.length < s.length) :
    List Char → List Char
  | [] => []
  | c :: cs =>
    match h : step (c :: cs) with
    | some (out, rest) => out ++ scanWith step hstep rest
    | none => c :: scanWith step hstep cs
termination_by s => s.length
decreasing_by
  · exact hstep _ _ _ h
  · simp

/-- Case-insensitive (ASCII `toLower`) prefix test, for the `(?i)` literals. -/
def ciPrefix : List Char → List Char → Bool
  | [], _ => true
  | _ :: _, [] => false
  | p :: ps, c :: cs => p.toLower = c.toLower ∧ ciPrefix ps cs

/-- Split at the first `'>'`: `some (inside, after)` with `inside` the
characters before it (none of which is `'>'`) and `after` the rest. This is
how `[^>]*>` resp. `[^>]+>` consume input after backtracking. -/
def splitFirstGt : List Char → Option (List Char × List Char)
  | [] => none
  | c :: rest =>
    if c = '>' then some ([], rest)
    else (splitFirstGt rest).map (fun p => (c :: p.1, p.2))

/-- Rest of the input after the earliest case-insensitive occurrence of
`pat` (the lazy `[\s\S]*?` followed by a literal finds the first one). -/
def splitAfterCI (pat : List Char) : List Char → Option (List Char)
  | [] => if pat = [] then some [] else none
  | c :: rest =>
    if ciPrefix pat (c :: rest) then some ((c :: rest).drop pat.length)
    else splitAfterCI pat rest


/-- `(script|style)` alternation branch at the position right after a `'<'`:
if `tag` is a case-insensitive prefix, `[^>]*>` consumes up to and including
the first following `'>'`. Returns the tag name and the rest after the `'>'`. -/
def tryOpenTag (tag rest : List Char) : Option (List Char × List Char) :=
  if ciPrefix tag rest then
    match splitFirstGt (rest.drop tag.length) with
    | some p => some (tag, p.2)
    | none => none
  else none

/-- Match `(script|style)[^>]*>` case-insensitively right after a `'<'`;
alternation tries `script` first (the two branches are mutually exclusive). -/
def openScriptStyle (rest : List Char) : Option (List Char × List Char) :=
  match tryOpenTag "script".data rest with
  | some r => some r
  | none => tryOpenTag "style".data rest

/-- One match of `scriptRe` (`(?i)<(script|style)[^>]*>[\s\S]*?</\1>`,
replacement `""`): an opening script/style tag, then — lazily — everything up
to the first matching case-insensitive closing tag. -/
def scriptStyleStep (s : List Char) : Option (List Char × List Char) :=
  match s with
  | c :: rest =>
    if c = '<' then
      match openScriptStyle rest with
      | some pr =>
        match splitAfterCI ('<' :: '/' :: (pr.1 ++ ['>'])) pr.2 with
        | some afterClose => some ([], afterClose)
        | none => none
      | none => none
    else none
  | [] => none

/-- One match of `brRe` (`(?i)<br\s*/?>`, replacement `"\n"`): `<br`,
a maximal run of regexp whitespace, an optional `/`, then `>`. -/
def brStep (s : List Char) : Option (List Char × List Char) :=
  match s with
  | c0 :: c1 :: c2 :: rest =>
    if c0 = '<' ∧ c1.toLower = 'b' ∧ c2.toLower = 'r' then
      if ['/', '>'].isPrefixOf (rest.dropWhile goIsRegexSpace) then
        some (['\n'], (rest.dropWhile goIsRegexSpace).drop 2)
      else if ['>'].isPrefixOf (rest.dropWhile goIsRegexSpace) then
        some (['\n'], (rest.dropWhile goIsRegexSpace).drop 1)
      else none
    else none
  | _ => none

/-- One match of `pRe` (`(?i)</p>`, replacement `"\n"`). -/
def pStep (s : List Char) : Option (List Char × List Char) :=
  match s with
  | a :: b :: c :: d :: rest =>
    if a = '<' ∧ b = '/' ∧ c.toLower = 'p' ∧ d = '>' then some (['\n'], rest)
    else none
  | _ => none

/-- One match of `tagRe` (`<[^>]+>`, replacement `""`): a `'<'`, at least one
non-`'>'` character, then the first `'>'`. -/
def tagStep (s : List Char) : Option (List Char × List Char) :=
  match s with
  | c :: rest =>
    if c = '<' then
      match splitFirstGt rest with
      | some p => if p.1 = [] then none else some ([], p.2)
      | none => none
    else none
  | [] => none

/-- One match of `wsRe` (`\s+`, replacement `" "`): a maximal non-empty run
of regexp whitespace. -/
def wsStep (s : List Char) : Option (List Char × List Char) :=
  match s with
  | c :: cs =>
    if goIsRegexSpace c then some ([' '], cs.dropWhile goIsRegexSpace) else none
  | [] => none

/-- One match of `strings.ReplaceAll(s, find, repl)` for non-empty `find`. -/
def literalStep (find repl : List Char) (s : List Char) :
    Option (List Char × List Char) :=
  if find ≠ [] ∧ find.isPrefixOf s then some (repl, s.drop find.length)
  else none

/-- `scriptRe.ReplaceAllString(html, "")` — the substitution the Go code
*would* perform if the pattern compiled (it does not; see `stripHTML`). -/
def removeScriptStyle : List Char → List Char :=
  scanWith scriptStyleStep (by
    have hgt : ∀ (l : List Char) (p : List Char × List Char),
        splitFirstGt l = some p → p.2.length < l.length := by
      intro l
      induction l with
      | nil => intro p hp; simp [splitFirstGt] at hp
      | cons c rest ih =>
        intro p hp
        simp only [splitFirstGt] at hp
        by_cases hc : c = '>'
        · rw [if_pos hc] at hp
          simp only [Option.some.injEq] at hp
          subst hp
          simp only [List.length_cons]
          omega
        · rw [if_neg hc] at hp
          rcases hmap : splitFirstGt rest with _ | q
          · rw [hmap] at hp; simp at hp
          · rw [hmap] at hp
            simp only [Option.map_some', Option.some.injEq] at hp
            subst hp
            have := ih q hmap
            simp only [List.length_cons]
            omega
    have hci : ∀ (pat l r : List Char),
        splitAfterCI pat l = some r → r.length ≤ l.length := by
      intro pat l
      induction l with
      | nil =>
        intro r hr
        simp only [splitAfterCI] at hr
        split at hr
        · simp only [Option.some.injEq] at hr
          subst hr
          simp
        · simp at hr
      | cons c rest ih =>
        intro r hr
        simp only [splitAfterCI] at hr
        split at hr
        · simp only [Option.some.injEq] at hr
          subst hr
          rw [List.length_drop]
          omega
        · have := ih r hr
          simp only [List.length_cons]
          omega
    have hopenTag : ∀ (tag rest : List Char) (pr : List Char × List Char),
        tryOpenTag tag rest = some pr → pr.2.length < rest.length := by
      intro tag rest pr h
      unfold tryOpenTag at h
      split at h
      · rcases hsg : splitFirstGt (rest.drop tag.length) with _ | q
        · rw [hsg] at h; simp at h
        · rw [hsg] at h
          simp only [Option.some.injEq] at h
          subst h
          have h1 := hgt _ q hsg
          have h2 : (rest.drop tag.length).length ≤ rest.length := by
            rw [List.length_drop]; omega
          exact lt_of_lt_of_le h1 h2
      · simp at h
    have hopenSS : ∀ (rest : List Char) (pr : List Char × List Char),
        openScriptStyle rest = some pr → pr.2.length < rest.length := by
      intro rest pr h
      unfold openScriptStyle at h
      rcases h1 : tryOpenTag "script".data rest with _ | q
      · rw [h1] at h
        exact hopenTag _ _ _ h
      · rw [h1] at h
        simp only [Option.some.injEq] at h
        subst h
        exact hopenTag _ _ _ h1
    intro s out rest h
    cases s with
    | nil => simp [scriptStyleStep] at h
    | cons c rest0 =>
      simp only [scriptStyleStep] at h
      split at h
      · split at h
        · rename_i pr hop
          split at h
          · rename_i ac hcl
            simp only [Option.some.injEq, Prod.mk.injEq] at h
            obtain ⟨-, h2⟩ := h
            subst h2
            have ho := hopenSS _ _ hop
            have hc := hci _ _ _ hcl
            simp only [List.length_cons]
            omega
          · simp at h
        · simp at h
      · simp at h)

/-- `brRe.ReplaceAllString(html, "\n")`. -/
def replaceBr : List Char → List Char :=
  scanWith brStep (by
    intro s out rest h
    rcases s with _ | ⟨c0, _ | ⟨c1, _ | ⟨c2, rest0⟩⟩⟩
    · simp [brStep] at h
    · simp [brStep] at h
    · simp [brStep] at h
    · simp only [brStep] at h
      split at h
      · split at h
        · simp only [Option.some.injEq, Prod.mk.injEq] at h
          obtain ⟨-, h2⟩ := h
          subst h2
          have hd : (rest0.dropWhile goIsRegexSpace).length ≤ rest0.length :=
            (List.dropWhile_sublist _).length_le
          rw [List.length_drop]
          simp only [List.length_cons]
          omega
        · split at h
          · simp only [Option.some.injEq, Prod.mk.injEq] at h
            obtain ⟨-, h2⟩ := h
            subst h2
            have hd : (rest0.dropWhile goIsRegexSpace).length ≤ rest0.length :=
              (List.dropWhile_sublist _).length_le
            rw [List.length_drop]
            simp only [List.length_cons]
            omega
          · simp at h
      · simp at h)

/-- `pRe.ReplaceAllString(html, "\n")`. -/
def replaceP : List Char → List Char :=
  scanWith pStep (by
    intro s out rest h
    rcases s with _ | ⟨a, _ | ⟨b, _ | ⟨c, _ | ⟨d, rest0⟩⟩⟩⟩
    · simp [pStep] at h
    · simp [pStep] at h
    · simp [pStep] at h
    · simp [pStep] at h
    · simp only [pStep] at h
      split at h
      · simp only [Option.some.injEq, Prod.mk.injEq] at h
        obtain ⟨-, h2⟩ := h
        subst h2
        simp only [List.length_cons]
        omega
      · simp at h)

/-- `tagRe.ReplaceAllString(html, "")`. -/
def stripTags : List Char → List Char :=
  scanWith tagStep (by
    have hgt : ∀ (l : List Char) (p : List Char × List Char),
        splitFirstGt l = some p → p.2.length < l.length := by
      intro l
      induction l with
      | nil => intro p hp; simp [splitFirstGt] at hp
      | cons c rest ih =>
        intro p hp
        simp only [splitFirstGt] at hp
        by_cases hc : c = '>'
        · rw [if_pos hc] at hp
          simp only [Option.some.injEq] at hp
          subst hp
          simp only [List.length_cons]
          omega
        · rw [if_neg hc] at hp
          rcases hmap : splitFirstGt rest with _ | q
          · rw [hmap] at hp; simp at hp
          · rw [hmap] at hp
            simp only [Option.map_some', Option.some.injEq] at hp
            subst hp
            have := ih q hmap
            simp only [List.length_cons]
            omega
    intro s out rest h
    cases s with
    | nil => simp [tagStep] at h
    | cons c rest0 =>
      simp only [tagStep] at h
      split at h
      · split at h
        · rename_i p hsg
          split at h
          · simp at h
          · simp only [Option.some.injEq, Prod.mk.injEq] at h
            obtain ⟨-, h2⟩ := h
            subst h2
            have := hgt _ p hsg
            simp only [List.length_cons]
            omega
        · simp at h
      · simp at h)

/-- `wsRe.ReplaceAllString(html, " ")`. -/
def normalizeWs : List Char → List Char :=
  scanWith wsStep (by
    intro s out rest h
    cases s with
    | nil => simp [wsStep] at h
    | cons c cs =>
      simp only [wsStep] at h
      split at h
      · simp only [Option.some.injEq, Prod.mk.injEq] at h
        obtain ⟨-, h2⟩ := h
        subst h2
        have hd : (cs.dropWhile goIsRegexSpace).length ≤ cs.length :=
          (List.dropWhile_sublist _).length_le
        simp only [List.length_cons]
        omega
      · simp at h)

/-- `strings.ReplaceAll(s, find, repl)` (used with the six HTML entities;
all its uses have non-empty `find`, on which a match consumes `find`). -/
def goReplaceAll (find repl : List Char) : List Char → List Char :=
  scanWith (literalStep find repl) (by
    intro s out rest h
    unfold literalStep at h
    split at h
    case isTrue hc =>
      obtain ⟨hne, hpre⟩ := hc
      simp only [Option.some.injEq, Prod.mk.injEq] at h
      obtain ⟨-, h2⟩ := h
      subst h2
      have hle : find.length ≤ s.length :=
        (List.isPrefixOf_iff_prefix.mp hpre).length_le
      have hpos : 0 < find.length := List.length_pos.mpr hne
      rw [List.length_drop]
      omega
    case isFalse => simp at h)

/-- The six `strings.ReplaceAll` entity decodings, in source order. -/
def decodeEntities (s : List Char) : List Char :=
  let s1 := goReplaceAll "&nbsp;".data " ".data s
  let s2 := goReplaceAll "&lt;".data "<".data s1
  let s3 := goReplaceAll "&gt;".data ">".data s2
  let s4 := goReplaceAll "&amp;".data "&".data s3
  let s5 := goReplaceAll "&quot;".data "\"".data s4
  goReplaceAll "&#39;".data ['\''] s5

/-- The cascade of substitutions in `stripHTML` after script/style removal:
`<br>`/`</p>` to newlines, tag removal, entity decoding, whitespace
normalisation, and a final `strings.TrimSpace`. -/
def stripHTMLTail (html : List Char) : List Char :=
  let h1 := replaceBr html
  let h2 := replaceP h1
  let h3 := stripTags h2
  let h4 := decodeEntities h3
  let h5 := normalizeWs h4
  trimSpaceL h5

/-- `Reader.stripHTML` (`internal/email/reader.go` lines 294-323). Its first
statement, `regexp.MustCompile(scriptStylePattern)`, panics: the pattern's
`\1` is a backreference, which Go's RE2-based `regexp` rejects
(`ErrInvalidEscape`). The panic is the `Except.error` case; the substitution
cascade below it is therefore unreachable on every input. -/
def stripHTML (html : String) : Except Err String :=
  if hasBackrefEscape scriptStylePattern.data then .error regexPanicMsg
  else .ok (String.mk (stripHTMLTail (removeScriptStyle html.data)))

/-! ## The IMAP reader (`internal/email/reader.go`) -/

/-- The loop body of `extractBody` (lines 262-281): walk the `NextPart`
outcomes, keeping the *last* text/plain and text/html inline parts (later
parts overwrite earlier ones); `NextPart` errors are skipped (`continue`),
non-inline parts are ignored. -/
def collectParts : List PartEvt → String × String → String × String
  | [], acc => acc
  | p :: rest, acc =>
    match p with
    | .errPart _ => collectParts rest acc
    | .otherPart => collectParts rest acc
    | .inlinePart ct data =>
      if goHasPrefix ct "text/plain" then collectParts rest (data, acc.2)
      else if goHasPrefix ct "text/html" then collectParts rest (acc.1, data)
      else collectParts rest acc

/-- `Reader.extractBody` (lines 241-292): returns `(body, messageID,
returned error)`. The only returned error is from the raw-read fallback when
`mail.CreateReader` already failed; the outer `Except.error` is a Go *panic*
(from `stripHTML`, reached exactly when only an HTML body is present). -/
def extractBody (input : BodySection) : Except Err (String × String × Option Err) :=
  match input with
  | .unparsable raw =>
    match raw with
    | .error e => .ok ("", "", some e)
    | .ok data => .ok (data, "", none)
  | .parsed messageID parts =>
    let tb := collectParts parts ("", "")
    if tb.1 ≠ "" then .ok (tb.1, messageID, none)
    else if tb.2 ≠ "" then
      match stripHTML tb.2 with
      | .error p => .error p
      | .ok strippedHtml => .ok (strippedHtml, messageID, none)
    else .ok ("", messageID, none)

/-- The accumulation loop of `createPreview` (lines 327-345): trim each
line, skip empties, append whole lines while they fit (counting one
separator per line), and on overflow append the prefix that still fits (if
any) and stop. -/
def previewLoop (maxLen : Int) : List (List Char) → List (List Char) → Int → List (List Char)
  | [], preview, _ => preview
  | line :: rest, preview, currentLen =>
    let tl := trimSpaceL line
    if tl = [] then previewLoop maxLen rest preview currentLen
    else if currentLen + tl.length > maxLen then
      if maxLen - currentLen > 0 then preview ++ [tl.take (maxLen - currentLen).toNat]
      else preview
    else previewLoop maxLen rest (preview ++ [tl]) (currentLen + tl.length + 1)

/-- `Reader.createPreview` (lines 325-352): join the collected lines with
spaces and append `"..."` when the original body is longer than `maxLen`. -/
def createPreview (body : String) (maxLen : Int) : String :=
  let lines := splitOnChar '\n' body.data
  let preview := previewLoop maxLen lines [] 0
  let result := joinWith [' '] preview
  if (body.data.length : Int) > maxLen then String.mk (result ++ "...".data)
  else String.mk result

/-- `Reader.formatAddress` (lines 230-239). -/
def formatAddress : Option ImapAddress → String
  | none => ""
  | some a =>
    if a.PersonalName ≠ "" then
      a.PersonalName ++ " <" ++ a.MailboxName ++ "@" ++ a.HostName ++ ">"
    else a.MailboxName ++ "@" ++ a.HostName

/-- `Reader.convertMessage` (lines 198-228); its `fullBody` parameter is
unused in the Go source as well. -/
def convertMessage (msg : ImapMsg) (fullBody : Bool) : Message :=
  let _ := fullBody
  let emsg : Message := { UID := msg.Uid, SeqNum := msg.SeqNum, Flags := msg.Flags }
  match msg.Envelope with
  | none => emsg
  | some env =>
    { emsg with
      Subject := env.Subject
      Date := env.Date
      FromAddr := match env.FromAddrs with
        | a :: _ => formatAddress a
        | [] => ""
      To := env.To.map formatAddress
      CC := env.Cc.map formatAddress
      BCC := env.Bcc.map formatAddress }

/-- `Reader.Connect` (lines 27-50): dial (`DialTLS`/`Dial` — one abstract
call in the model), then login; each failure is wrapped and returned, a
login failure after a logout of the fresh connection. -/
def connectR (srv : ImapServer) : GoResult Unit × List CallEvt :=
  match srv.dial with
  | .error e => (.err ("failed to connect to IMAP server: " ++ e), [.dial])
  | .ok _ =>
    match srv.login with
    | .error e => (.err ("failed to login: " ++ e), [.dial, .login])
    | .ok _ => (.ok (), [.dial, .login])

/-- `Reader.ListMessages` (lines 52-131): connect, select, early-return on
an empty mailbox, UID-search (criteria depend only on `unreadOnly`),
early-return on an empty result, keep only the trailing `limit` UIDs when
`limit > 0` and the result is longer, then fetch and convert. -/
def listMessages (srv : ImapServer) (cfg : IMAPConfig) (limit : Int) (unreadOnly : Bool) :
    GoResult (List Message) × List CallEvt :=
  match connectR srv with
  | (.ok _, tr) =>
    match srv.selectMb cfg.Mailbox with
    | .error e => (.err ("failed to select mailbox: " ++ e), tr ++ [.selectMb cfg.Mailbox])
    | .ok nMsgs =>
      if nMsgs = 0 then (.ok [], tr ++ [.selectMb cfg.Mailbox])
      else
        match srv.uidSearch unreadOnly with
        | .error e =>
          (.err ("failed to search messages: " ++ e), tr ++ [.selectMb cfg.Mailbox, .search])
        | .ok uids =>
          if uids = [] then (.ok [], tr ++ [.selectMb cfg.Mailbox, .search])
          else
            let req := if limit > 0 ∧ (uids.length : Int) > limit then
                uids.drop (uids.length - limit.toNat)
              else uids
            let fr := srv.uidFetch req
            let result := fr.1.map (fun m => convertMessage m false)
            match fr.2 with
            | some e =>
              (.err ("failed to fetch messages: " ++ e),
               tr ++ [.selectMb cfg.Mailbox, .search, .fetch req])
            | none => (.ok result, tr ++ [.selectMb cfg.Mailbox, .search, .fetch req])
  | (.err e, tr) => (.err e, tr)
  | (.crash p, tr) => (.crash p, tr)

/-- Per-message processing in `ReadMessage`'s fetch loop (lines 170-185):
convert, then extract body and Message-ID. An extraction *error* is
discarded — the `if err == nil` guard leaves the message without a body — 
while a panic from `stripHTML` inside `extractBody` aborts the program. -/
def processFetched (msg : ImapMsg) : Except Err Message :=
  let emsg := convertMessage msg true
  match msg.Body with
  | none => .ok emsg
  | some sec =>
    match extractBody sec with
    | .error p => .error p
    | .ok (body, messageID, errOpt) =>
      match errOpt with
      | none =>
        .ok { emsg with
              Body := body
              MessageID := messageID
              BodyPreview := createPreview body 200 }
      | some _ => .ok emsg

/-- The channel-drain loop of `ReadMessage`: process each delivered message
in turn and keep the last (`result = &emsg`); a panic aborts. -/
def drainLoop : List ImapMsg → Option Message → Except Err (Option Message)
  | [], acc => .ok acc
  | m :: rest, _ =>
    match processFetched m with
    | .error p => .error p
    | .ok em => drainLoop rest (some em)

/-- `Reader.ReadMessage` (lines 133-196): connect, select, fetch the single
UID, drain the channel, then check the fetch error, then `nil`-check the
result ("message not found"). -/
def readMessage (srv : ImapServer) (cfg : IMAPConfig) (uid : Nat) :
    GoResult Message × List CallEvt :=
  match connectR srv with
  | (.ok _, tr) =>
    match srv.selectMb cfg.Mailbox with
    | .error e => (.err ("failed to select mailbox: " ++ e), tr ++ [.selectMb cfg.Mailbox])
    | .ok _ =>
      let fr := srv.uidFetch [uid]
      match drainLoop fr.1 none with
      | .error p => (.crash p, tr ++ [.selectMb cfg.Mailbox, .fetch [uid]])
      | .ok result =>
        match fr.2 with
        | some e =>
          (.err ("failed to fetch message: " ++ e), tr ++ [.selectMb cfg.Mailbox, .fetch [uid]])
        | none =>
          match result with
          | none => (.err "message not found", tr ++ [.selectMb cfg.Mailbox, .fetch [uid]])
          | some m => (.ok m, tr ++ [.selectMb cfg.Mailbox, .fetch [uid]])
  | (.err e, tr) => (.err e, tr)
  | (.crash p, tr) => (.crash p, tr)

/-! ## The SMTP sender (`internal/email/sender.go`) -/

/-- `sendOptions` (sender.go lines 455-464); the Go `headers` map is
modelled as an association list (map iteration order abstracted as the list
order; the repository only ever passes an empty map). -/
structure sendOptions where
  cc : List String := []
  bcc : List String := []
  htmlBody : String := ""
  attachments : List String := []
  headers : List (String × String) := []
  inReplyTo : String := ""
  references : List String := []

/-- `SendOption` (line 467). -/
abbrev SendOption := sendOptions → sendOptions

/-- `WithCC` (lines 469-474). -/
def WithCC (cc : List String) : SendOption := fun o => { o with cc := cc }

/-- `WithBCC` (lines 476-481). -/
def WithBCC (bcc : List String) : SendOption := fun o => { o with bcc := bcc }

/-- `WithHTMLBody` (lines 483-488). -/
def WithHTMLBody (html : String) : SendOption := fun o => { o with htmlBody := html }

/-- `WithAttachments` (lines 490-495). -/
def WithAttachments (files : List String) : SendOption := fun o => { o with attachments := files }

/-- `WithHeaders` (lines 497-502). -/
def WithHeaders (headers : List (String × String)) : SendOption := fun o => { o with headers := headers }

/-- `WithInReplyTo` (lines 504-509). -/
def WithInReplyTo (messageID : String) : SendOption := fun o => { o with inReplyTo := messageID }

/-- `WithReferences` (lines 511-516). -/
def WithReferences (refs : List String) : SendOption := fun o => { o with references := refs }

/-- A `gomail.Message`, to the extent `Send` populates it. -/
structure GomailMessage where
  headers : List (String × List String) := []
  bodyType : String := ""
  body : String := ""
  alternatives : List (String × String) := []
  attachments : List String := []

/-- `m.SetHeader(field, value...)`: replaces any previous value of `field`. -/
def setHeader (m : GomailMessage) (field : String) (value : List String) : GomailMessage :=
  { m with headers := (m.headers.filter (fun h => h.1 ≠ field)) ++ [(field, value)] }

/-- Look a header up in the built message. -/
def getHeader (m : GomailMessage) (field : String) : Option (List String) :=
  (m.headers.find? (fun h => h.1 = field)).map (fun h => h.2)

/-- Application of the option closures to the zero `sendOptions`
(sender.go lines 393-396). -/
def applyOptions (opts : List SendOption) : sendOptions :=
  opts.foldl (fun o f => f o) {}

/-- The message-building part of `Sender.Send` (lines 381-436): From
(falling back to the username), To, Subject, then the optional Cc, Bcc,
In-Reply-To, References and custom headers, then the body (HTML with a
plain-text alternative, or plain text) and the attachments. -/
def buildMessage (cfg : SMTPConfig) (toAddrs : List String) (subject body : String)
    (options : sendOptions) : GomailMessage :=
  let fromV := if cfg.FromAddr = "" then cfg.Username else cfg.FromAddr
  let m : GomailMessage := {}
  let m := setHeader m "From" [fromV]
  let m := setHeader m "To" toAddrs
  let m := setHeader m "Subject" [subject]
  let m := if options.cc ≠ [] then setHeader m "Cc" options.cc else m
  let m := if options.bcc ≠ [] then setHeader m "Bcc" options.bcc else m
  let m := if options.inReplyTo ≠ "" then setHeader m "In-Reply-To" [options.inReplyTo] else m
  let m := if options.references ≠ [] then setHeader m "References" options.references else m
  let m := options.headers.foldl (fun acc kv => setHeader acc kv.1 [kv.2]) m
  let m := if options.htmlBody ≠ "" then
      { m with
        bodyType := "text/html"
        body := options.htmlBody
        alternatives := if body ≠ "" then [("text/plain", body)] else [] }
    else { m with bodyType := "text/plain", body := body }
  { m with attachments := options.attachments }

/-- `Sender.Send` (lines 375-453): empty-recipient check, build the
message, dial and send; a send failure is wrapped. On success the model
returns the message handed to `DialAndSend` (Go returns `nil`), so that
theorems can inspect what was sent. -/
def Send (cfg : SMTPConfig) (dialAndSend : GomailMessage → Except Err Unit)
    (toAddrs : List String) (subject body : String) (opts : List SendOption) :
    Except Err GomailMessage :=
  if toAddrs = [] then .error "at least one recipient is required"
  else
    let m := buildMessage cfg toAddrs subject body (applyOptions opts)
    match dialAndSend m with
    | .error e => .error ("failed to send email: " ++ e)
    | .ok _ => .ok m

/-- `FormatQuotedReply` (sender.go lines 518-545), written exactly in the
source's builder order: optional reply body plus blank line, attribution
line, every split line of the original written as `"> " + line + "\n"`, and
a final `strings.TrimRight(result, "\n")`. -/
def FormatQuotedReply (replyBody originalBody fromAddr date : String) : String :=
  let res1 := if replyBody ≠ "" then replyBody.data ++ "\n\n".data else []
  let res2 := res1 ++ "On ".data ++ date.data ++ ", ".data ++ fromAddr.data ++ " wrote:\n".data
  let lines := splitOnChar '\n' originalBody.data
  let res3 := lines.foldl (fun acc line => acc ++ "> ".data ++ line ++ "\n".data) res2
  String.mk (trimRightChar '\n' res3)

/-- Specification-side restatement of the quoted-reply format (claim C6),
written from the spec's words rather than the code: the reply body followed
by one blank line (omitted when the reply body is empty), then the
attribution line, then every line of the original body prefixed with `"> "`,
each on its own line (i.e. newline-separated), with all trailing newline
characters removed from the final result. -/
def quotedReplySpec (replyBody originalBody fromAddr date : String) : String :=
  let bodyPart := if replyBody = "" then [] else replyBody.data ++ ['\n', '\n']
  let attribution :=
    "On ".data ++ date.data ++ ", ".data ++ fromAddr.data ++ " wrote:".data ++ ['\n']
  let quoted :=
    joinWith ['\n'] ((splitOnChar '\n' originalBody.data).map (fun l => ['>', ' '] ++ l))
  String.mk (trimRightChar '\n' (bodyPart ++ attribution ++ quoted))

/-! ## The reply command (`internal/cli/reply.go`) -/

/-- `isSelf` (reply.go lines 214-228): lowercase everything, extract the
bare email of the address from a `Name <email>` form (the part between the
last `<` and the last `>`, when the latter lies further right), and compare
with the lowercased configured From address and username (which are not
themselves extracted). -/
def isSelf (addr fromAddr username : String) : Bool :=
  let a := (goToLower addr).data
  let f := (goToLower fromAddr).data
  let u := (goToLower username).data
  let a2 :=
    match lastIndexOfChar '<' a with
    | some idx =>
      match lastIndexOfChar '>' a with
      | some endIdx =>
        if endIdx > idx then (a.drop (idx + 1)).take (endIdx - (idx + 1)) else a
      | none => a
    | none => a
  decide (a2 = f ∨ a2 = u)

/-- The reply-all CC construction (reply.go lines 111-134): the original CC
recipients filtered only for self; then the original To recipients, filtered
for self and for the original sender and deduplicated against the list built
so far. With `all` false the CC list stays empty. -/
def buildReplyCc (original : Message) (fromAddr username : String) (all : Bool) :
    List String :=
  if all then
    let cc := original.CC.foldl
      (fun cc addr => if !isSelf addr fromAddr username then cc ++ [addr] else cc) []
    original.To.foldl
      (fun cc addr =>
        if !isSelf addr fromAddr username ∧ addr ≠ original.FromAddr then
          if cc.contains addr then cc else cc ++ [addr]
        else cc)
      cc
  else []

/-- The `Re:` prefixing of the subject (reply.go lines 136-140). -/
def replySubject (subject : String) : String :=
  if goHasPrefix (goToLower subject) "re:" then subject else "Re: " ++ subject

/-- The post-fetch part of the reply command's `RunE` (reply.go lines
107-171): recipient lists, subject, reply body (quoted unless `--no-quote`),
references chain, send options, and the final `sender.Send` call. -/
def replyRun (cfg : SMTPConfig) (dialAndSend : GomailMessage → Except Err Unit)
    (original : Message) (body : String) (all noQuote : Bool) :
    Except Err GomailMessage :=
  let toAddrs := [original.FromAddr]
  let cc := buildReplyCc original cfg.FromAddr cfg.Username all
  let subject := replySubject original.Subject
  let replyBody := if noQuote then body
    else FormatQuotedReply body original.Body original.FromAddr original.Date.formatYmdHm
  let references := if original.MessageID ≠ "" then [original.MessageID] else []
  let opts : List SendOption := []
  let opts := if cc ≠ [] then opts ++ [WithCC cc] else opts
  let opts := if original.MessageID ≠ "" then
      opts ++ [WithInReplyTo original.MessageID, WithReferences references]
    else opts
  Send cfg dialAndSend toAddrs subject replyBody opts

/-! ## The send command (`internal/cli/send.go`) -/

/-- The `send` command's flag values (send.go lines 16-27, 164-172); `to`
is named `toAddrs` (`to` is reserved in Lean), and the `htmlBody` variable
has no flag of its own and starts empty, so it is not a field here. -/
structure SendFlags where
  toAddrs : List String := []
  cc : List String := []
  bcc : List String := []
  subject : String := ""
  body : String := ""
  bodyFile : String := ""
  htmlFile : String := ""
  attachments : List String := []
  inReplyTo : String := ""

/-- The file system as the send command sees it: `os.ReadFile` contents and
`os.Stat` sizes. -/
structure FileSystem where
  readFile : String → Except Err String
  stat : String → Except Err Int

/-- `maxAttachments` (send.go line 111). -/
def maxAttachments : Nat := 5

/-- `maxFileSize` (send.go line 112): 10MB. -/
def maxFileSize : Int := 10 * 1024 * 1024

/-- `formatBytes` (send.go lines 189-202). Go formats `float64(bytes)/MB`
with `%.1f`; floating-point formatting is modelled by truncating integer
division to one decimal digit (the rounding of the last digit can differ
from `%.1f`; no claim depends on these message strings). -/
def formatBytes (bytes : Int) : String :=
  if bytes ≥ 1024 * 1024 then
    toString (bytes * 10 / (1024 * 1024) / 10) ++ "." ++
      toString (bytes * 10 / (1024 * 1024) % 10) ++ "MB"
  else if bytes ≥ 1024 then
    toString (bytes * 10 / 1024 / 10) ++ "." ++ toString (bytes * 10 / 1024 % 10) ++ "KB"
  else toString bytes ++ "B"

/-- The attachment validation loop (send.go lines 117-125): each path is
`os.Stat`-ed; an access failure or a size above `maxFileSize` aborts with an
error. -/
def checkAttachments (fs : FileSystem) : List String → Except Err Unit
  | [] => .ok ()
  | att :: rest =>
    match fs.stat att with
    | .error e =>
      .error ("cannot access attachment " ++ att ++ ": " ++ e ++ ". Use --help for usage info")
    | .ok size =>
      if size > maxFileSize then
        .error ("attachment " ++ att ++ " is too large: " ++ formatBytes size ++
          " (max " ++ formatBytes maxFileSize ++ "). Use --help for usage info")
      else checkAttachments fs rest

/-- `newSendCmd`'s `RunE` (send.go lines 69-160): SMTP config validation,
body/HTML loading from files, required-field checks, the attachment limits,
then the send. The boolean of the result records whether `sender.Send` was
invoked. `handleError` either returns the error or, in JSON mode, prints it
and calls `os.Exit(1)`; both are an error outcome of the command and are
modelled as `Except.error`. `config.Load` itself never fails. -/
def runSendCmd (cfg : SMTPConfig) (fs : FileSystem)
    (dialAndSend : GomailMessage → Except Err Unit) (fl : SendFlags) :
    Except Err Unit × Bool :=
  match ValidateSMTP cfg with
  | .error e => (.error e, false)
  | .ok _ =>
    let bodyR : Except Err String :=
      if fl.bodyFile ≠ "" then
        match fs.readFile fl.bodyFile with
        | .error e => .error ("failed to read body file: " ++ e ++ ". Use --help for usage info")
        | .ok data => .ok data
      else .ok fl.body
    match bodyR with
    | .error e => (.error e, false)
    | .ok body =>
      let htmlR : Except Err String :=
        if fl.htmlFile ≠ "" then
          match fs.readFile fl.htmlFile with
          | .error e => .error ("failed to read HTML file: " ++ e ++ ". Use --help for usage info")
          | .ok data => .ok data
        else .ok ""
      match htmlR with
      | .error e => (.error e, false)
      | .ok htmlBody =>
        if fl.toAddrs = [] then
          (.error "at least one recipient (--to) is required. Use --help for usage info", false)
        else if fl.subject = "" then
          (.error "subject is required. Use --help for usage info", false)
        else if body = "" ∧ htmlBody = "" then
          (.error "either --body or --html-file must be provided. Use --help for usage info", false)
        else if fl.attachments.length > maxAttachments then
          (.error ("too many attachments: maximum is 5 (you have " ++
            toString fl.attachments.length ++ "). Use --help for usage info"), false)
        else
          match checkAttachments fs fl.attachments with
          | .error e => (.error e, false)
          | .ok _ =>
            let opts : List SendOption :=
              [WithCC fl.cc, WithBCC fl.bcc, WithAttachments fl.attachments]
            let opts := if htmlBody ≠ "" then opts ++ [WithHTMLBody htmlBody] else opts
            let opts := if fl.inReplyTo ≠ "" then opts ++ [WithInReplyTo fl.inReplyTo] else opts
            match Send cfg dialAndSend fl.toAddrs fl.subject body opts with
            | .error e => (.error e, true)
            | .ok _ => (.ok (), true)

/-- The fetch requests recorded in a trace (the argument of each
`UidFetch` call). -/
def fetchReqs (tr : List CallEvt) : List (List Nat) :=
  tr.filterMap (fun e => match e with | .fetch us => some us | _ => none)

/-! ## Helper lemmas -/

theorem splitOnChar_ne_nil (sep : Char) (s : List Char) : splitOnChar sep s ≠ [] := by
  cases s with
  | nil => simp [splitOnChar]
  | cons c rest =>
    simp only [splitOnChar]
    rcases h : splitOnChar sep rest with _ | ⟨r, rs⟩
    · simp
    · by_cases hc : c = sep <;> simp [hc]

theorem trimRightChar_append_same (c : Char) (l : List Char) :
    trimRightChar c (l ++ [c]) = trimRightChar c l := by
  simp [trimRightChar, List.dropWhile]

theorem convertMessage_Body (msg : ImapMsg) (b : Bool) :
    (convertMessage msg b).Body = "" := by
  simp only [convertMessage]
  rcases msg.Envelope with _ | env <;> simp

/-! ## C3: `stripHTML` (code bug — the script/style regexp does not compile) -/

/-- C3: the claim says that for every input string, `stripHTML` returns a
string containing no substring matching `<[^>]+>`. In fact `stripHTML`
never returns a string at all: its first statement
`regexp.MustCompile("(?i)<(script|style)[^>]*>[\s\S]*?</\1>")` panics on
every call, because Go's RE2-based `regexp` package rejects the
backreference `\1` ("invalid escape sequence"). The code contradicts its
own doc comment ("stripHTML removes HTML tags and returns plain text"). -/
theorem c3_stripHTML_panics (html : String) :
    stripHTML html = .error regexPanicMsg := by
  rfl

/-! ## C4: `extractBody` body preference (code bug via `stripHTML`) -/

/-- C4: the claim says `extractBody` returns the last text/plain inline
part when one with non-empty content exists, else the stripped text/html
part, else `""` — with no error in all three cases. The first and third
cases hold, but in the HTML-fallback case `extractBody` calls `stripHTML`,
which panics on every call (see C3), instead of returning the stripped
text without error. -/
theorem c4_extractBody_cases :
    extractBody (.parsed "id" [.inlinePart "text/plain" "hello",
        .inlinePart "text/html" "<p>x</p>"]) = .ok ("hello", "id", none) ∧
    extractBody (.parsed "id" [.inlinePart "text/plain" "old",
        .inlinePart "text/plain" "new"]) = .ok ("new", "id", none) ∧
    extractBody (.parsed "id" [.inlinePart "text/html" "<p>hi</p>"]) =
      .error regexPanicMsg ∧
    extractBody (.parsed "id" [.errPart "part error", .otherPart]) =
      .ok ("", "id", none) := by
  refine ⟨rfl, rfl, rfl, rfl⟩

/-! ## C6: `FormatQuotedReply` -/

theorem foldl_quote_join (lines : List (List Char)) (init : List Char) :
    lines.foldl (fun acc line => acc ++ ['>', ' '] ++ line ++ ['\n']) init =
      init ++ (lines.map (fun l => ['>', ' '] ++ l ++ ['\n'])).flatten := by
  induction lines generalizing init with
  | nil => simp
  | cons x xs ih =>
    rw [List.foldl_cons, ih]
    simp [List.append_assoc]

theorem join_terminated_eq_joinWith (lines : List (List Char)) (h : lines ≠ []) :
    (lines.map (fun l => ['>', ' '] ++ l ++ ['\n'])).flatten =
      joinWith ['\n'] (lines.map (fun l => ['>', ' '] ++ l)) ++ ['\n'] := by
  induction lines with
  | nil => simp at h
  | cons x xs ih =>
    cases xs with
    | nil => simp [joinWith]
    | cons y ys =>
      rw [List.map_cons, List.flatten_cons, ih (by simp)]
      have hj : joinWith ['\n'] (List.map (fun l => ['>', ' '] ++ l) (x :: y :: ys)) =
          (['>', ' '] ++ x) ++ ['\n'] ++
            joinWith ['\n'] (List.map (fun l => ['>', ' '] ++ l) (y :: ys)) := by
        simp only [List.map_cons]
        rfl
      rw [hj]
      simp [List.append_assoc]

/-- C6: for every `replyBody`, `originalBody`, `from` and `date`,
`FormatQuotedReply` returns the reply body followed by one blank line (the
prefix omitted when `replyBody` is empty), then the attribution line
`"On <date>, <from> wrote:"`, then every line of the original body (split on
`"\n"`) prefixed with `"> "`, each on its own line, with all trailing
newline characters removed from the final result — i.e. it coincides with
the specification-side `quotedReplySpec`. -/
theorem c6_format_quoted_reply (replyBody originalBody fromAddr date : String) :
    FormatQuotedReply replyBody originalBody fromAddr date =
      quotedReplySpec replyBody originalBody fromAddr date := by
  simp only [FormatQuotedReply, quotedReplySpec]
  rw [foldl_quote_join, join_terminated_eq_joinWith _ (splitOnChar_ne_nil _ _),
    ← List.append_assoc, trimRightChar_append_same]
  have h3 : " wrote:\n".data = " wrote:".data ++ ['\n'] := rfl
  have h4 : "\n\n".data = ['\n', '\n'] := rfl
  by_cases hr : replyBody = "" <;>
    simp [hr, h3, h4, List.append_assoc]

/-! ## C7: `createPreview` length bound -/

theorem joinWith_space_length_append (xs : List (List Char)) (y : List Char) :
    (joinWith [' '] (xs ++ [y])).length =
      if xs = [] then y.length else (joinWith [' '] xs).length + 1 + y.length := by
  induction xs with
  | nil => simp [joinWith]
  | cons x xs ih =>
    cases xs with
    | nil =>
      simp [joinWith, List.length_append]
      omega
    | cons z zs =>
      have h1 : joinWith [' '] ((x :: z :: zs) ++ [y]) =
          x ++ [' '] ++ joinWith [' '] ((z :: zs) ++ [y]) := by
        simp only [List.cons_append]
        rfl
      have h2 : joinWith [' '] (x :: z :: zs) = x ++ [' '] ++ joinWith [' '] (z :: zs) := rfl
      rw [h1, h2]
      simp only [List.length_append, ih]
      simp
      omega

theorem previewLoop_length (maxLen : Int) (h0 : 0 ≤ maxLen) :
    ∀ (lines preview : List (List Char)) (currentLen : Int),
      (preview = [] → currentLen = 0) →
      (preview ≠ [] → currentLen = (joinWith [' '] preview).length + 1) →
      currentLen ≤ maxLen + 1 →
      ((joinWith [' '] (previewLoop maxLen lines preview currentLen)).length : Int) ≤ maxLen := by
  intro lines
  induction lines with
  | nil =>
    intro preview currentLen hemp hne hle
    simp only [previewLoop]
    by_cases hp : preview = []
    · subst hp
      simp [joinWith]
      exact h0
    · have := hne hp
      omega
  | cons line rest ih =>
    intro preview currentLen hemp hne hle
    simp only [previewLoop]
    by_cases ht : trimSpaceL line = []
    · rw [if_pos ht]
      exact ih preview currentLen hemp hne hle
    · rw [if_neg ht]
      by_cases hover : currentLen + ((trimSpaceL line).length : Int) > maxLen
      · rw [if_pos hover]
        by_cases hrem : maxLen - currentLen > 0
        · rw [if_pos hrem]
          have htk : ((trimSpaceL line).take (maxLen - currentLen).toNat).length ≤
              (maxLen - currentLen).toNat := by
            simp [List.length_take]
          rw [joinWith_space_length_append]
          by_cases hp : preview = []
          · have hc0 := hemp hp
            rw [if_pos hp]
            omega
          · have hc1 := hne hp
            rw [if_neg hp]
            omega
        · rw [if_neg hrem]
          by_cases hp : preview = []
          · subst hp
            simp [joinWith]
            exact h0
          · have := hne hp
            omega
      · rw [if_neg hover]
        have hplarge : preview ++ [trimSpaceL line] ≠ [] := by simp
        refine ih (preview ++ [trimSpaceL line]) (currentLen + (trimSpaceL line).length + 1)
          (fun hcontra => absurd hcontra hplarge) ?_ ?_
        · intro _
          rw [joinWith_space_length_append]
          by_cases hp : preview = []
          · have hc0 := hemp hp
            rw [if_pos hp]
            omega
          · have hc1 := hne hp
            rw [if_neg hp]
            omega
        · omega

/-- C7: for every body string and every `maxLen ≥ 0`, `createPreview body
maxLen` is a core of length at most `maxLen`, followed by exactly the three
extra characters of a `"..."` suffix appended if and only if the length of
the original body exceeds `maxLen`. -/
theorem c7_preview_length (body : String) (maxLen : Int) (h0 : 0 ≤ maxLen) :
    ∃ core : List Char,
      createPreview body maxLen =
        String.mk (core ++ (if (body.data.length : Int) > maxLen then "...".data else [])) ∧
      (core.length : Int) ≤ maxLen := by
  refine ⟨joinWith [' '] (previewLoop maxLen (splitOnChar '\n' body.data) [] 0), ?_, ?_⟩
  · simp only [createPreview]
    split <;> rename_i hb <;> simp [hb]
  · exact previewLoop_length maxLen h0 _ [] 0 (fun _ => rfl)
      (fun hc => absurd rfl hc) (by omega)

/-- Witness for C7 at a concrete input. -/
theorem c7_preview_length_witness :
    0 ≤ (5 : Int) ∧ ∃ core : List Char,
      createPreview "hello world" 5 =
        String.mk (core ++ (if (("hello world").data.length : Int) > 5 then "...".data else [])) ∧
      (core.length : Int) ≤ 5 :=
  ⟨by decide, c7_preview_length "hello world" 5 (by decide)⟩

/-! ## C1: reply-all recipient de-duplication -/

theorem foldl_filter_append {α : Type} (p : α → Bool) (l acc : List α) :
    l.foldl (fun cc a => if p a then cc ++ [a] else cc) acc = acc ++ l.filter p := by
  induction l generalizing acc with
  | nil => simp
  | cons x xs ih =>
    rw [List.foldl_cons, ih]
    by_cases hp : p x <;> simp [hp, List.filter_cons, List.append_assoc]

theorem replyCc_toLoop_mem (fromAddr username fromOrig : String)
    (l : List String) : ∀ (acc : List String) (x : String),
    x ∈ l.foldl (fun cc addr =>
      if !isSelf addr fromAddr username ∧ addr ≠ fromOrig then
        if cc.contains addr then cc else cc ++ [addr]
      else cc) acc →
    x ∈ acc ∨ (isSelf x fromAddr username = false ∧ x ≠ fromOrig) := by
  induction l with
  | nil => intro acc x hx; exact Or.inl hx
  | cons a as ih =>
    intro acc x hx
    rw [List.foldl_cons] at hx
    rcases ih _ x hx with hmem | hprop
    · by_cases hc : !isSelf a fromAddr username ∧ a ≠ fromOrig
      · rw [if_pos hc] at hmem
        by_cases hb : acc.contains a
        · rw [if_pos hb] at hmem
          exact Or.inl hmem
        · rw [if_neg hb] at hmem
          rcases List.mem_append.mp hmem with h1 | h2
          · exact Or.inl h1
          · right
            have hxa : x = a := by simpa using h2
            subst hxa
            exact ⟨by simpa using hc.1, hc.2⟩
      · rw [if_neg hc] at hmem
        exact Or.inl hmem
    · exact Or.inr hprop

theorem replyCc_toLoop_nodup (fromAddr username fromOrig : String)
    (l : List String) : ∀ acc : List String, acc.Nodup →
    (l.foldl (fun cc addr =>
      if !isSelf addr fromAddr username ∧ addr ≠ fromOrig then
        if cc.contains addr then cc else cc ++ [addr]
      else cc) acc).Nodup := by
  induction l with
  | nil => intro acc h; exact h
  | cons a as ih =>
    intro acc hacc
    rw [List.foldl_cons]
    apply ih
    by_cases hc : !isSelf a fromAddr username ∧ a ≠ fromOrig
    · rw [if_pos hc]
      by_cases hb : acc.contains a
      · rw [if_pos hb]; exact hacc
      · rw [if_neg hb]
        have hnm : a ∉ acc := by simpa using hb
        simp [List.nodup_append, hacc, hnm]
    · rw [if_neg hc]; exact hacc

/-- C1 (amended): the CC list built for reply-all never contains a self
address (one equal, after lowercasing and bare-email extraction, to the
configured SMTP From address or Username); and *provided* the original CC
list itself contains no duplicate addresses and does not contain the
original sender, the full recipient list (the To list — exactly the
original sender — together with the CC list) contains no duplicates. As
stated the claim is false: addresses copied from the original CC list are
filtered only for self, not deduplicated and not checked against the
original sender (see the counterexample). -/
theorem c1_reply_all_recipients (original : Message) (fromAddr username : String) :
    (∀ a ∈ buildReplyCc original fromAddr username true,
      isSelf a fromAddr username = false) ∧
    (original.CC.Nodup → original.FromAddr ∉ original.CC →
      (original.FromAddr :: buildReplyCc original fromAddr username true).Nodup) := by
  have hrw : buildReplyCc original fromAddr username true =
      original.To.foldl (fun cc addr =>
        if !isSelf addr fromAddr username ∧ addr ≠ original.FromAddr then
          if cc.contains addr then cc else cc ++ [addr]
        else cc)
        (original.CC.filter (fun addr => !isSelf addr fromAddr username)) := by
    simp only [buildReplyCc, if_pos]
    rw [foldl_filter_append]
    simp
  rw [hrw]
  constructor
  · intro a ha
    rcases replyCc_toLoop_mem fromAddr username original.FromAddr original.To _ a ha with
      hmem | hprop
    · have := List.of_mem_filter hmem
      simpa using this
    · exact hprop.1
  · intro hnd hnotin
    rw [List.nodup_cons]
    constructor
    · intro hmem
      rcases replyCc_toLoop_mem fromAddr username original.FromAddr original.To _ _ hmem with
        hmem2 | hprop
      · exact hnotin (List.mem_of_mem_filter hmem2)
      · exact hprop.2 rfl
    · exact replyCc_toLoop_nodup fromAddr username original.FromAddr original.To _
        (hnd.filter _)

/-- C1 counterexample: with the original message having sender `"a@x"`,
To `["a@x"]` and CC `["a@x", "b@x", "b@x"]`, and the user being `"me@y"`,
reply-all builds the CC list `["a@x", "b@x", "b@x"]`: the full recipient
list (To ++ CC) contains duplicates, and the CC list contains the original
sender — refuting the claim as stated. -/
theorem c1_counterexample :
    buildReplyCc { FromAddr := "a@x", To := ["a@x"], CC := ["a@x", "b@x", "b@x"] }
        "me@y" "me@y" true = ["a@x", "b@x", "b@x"] ∧
    ¬ (("a@x" :: buildReplyCc { FromAddr := "a@x", To := ["a@x"], CC := ["a@x", "b@x", "b@x"] }
        "me@y" "me@y" true).Nodup) ∧
    "a@x" ∈ buildReplyCc { FromAddr := "a@x", To := ["a@x"], CC := ["a@x", "b@x", "b@x"] }
        "me@y" "me@y" true := by
  refine ⟨by decide, by decide, by decide⟩

/-- Witness for C1 at a concrete input. -/
theorem c1_reply_all_recipients_witness :
    (∀ a ∈ buildReplyCc { FromAddr := "s@x", To := ["c@x"], CC := ["c@x"] } "me@y" "me@y" true,
      isSelf a "me@y" "me@y" = false) ∧
    ("s@x" :: buildReplyCc { FromAddr := "s@x", To := ["c@x"], CC := ["c@x"] }
      "me@y" "me@y" true).Nodup := by
  have h := c1_reply_all_recipients
    { FromAddr := "s@x", To := ["c@x"], CC := ["c@x"] } "me@y" "me@y"
  exact ⟨h.1, h.2 (by decide) (by decide)⟩

/-! ## C5: threading headers -/

/-- C5: for every reply, when the fetched original message has a non-empty
Message-ID, the message handed to the SMTP library has its In-Reply-To
header set to exactly that Message-ID and its References header containing
that Message-ID; when the original's Message-ID is empty, neither the
In-Reply-To nor the References header is set on the outgoing message. -/
theorem c5_threading_headers (cfg : SMTPConfig)
    (dialAndSend : GomailMessage → Except Err Unit) (original : Message)
    (body : String) (all noQuote : Bool) (m : GomailMessage)
    (h : replyRun cfg dialAndSend original body all noQuote = .ok m) :
    (original.MessageID ≠ "" →
      getHeader m "In-Reply-To" = some [original.MessageID] ∧
      ∃ refs, getHeader m "References" = some refs ∧ original.MessageID ∈ refs) ∧
    (original.MessageID = "" →
      getHeader m "In-Reply-To" = none ∧ getHeader m "References" = none) := by
  simp only [replyRun, Send] at h
  rw [if_neg (List.cons_ne_nil _ _)] at h
  split at h
  · simp at h
  · rename_i u hd
    simp only [Except.ok.injEq] at h
    subst h
    constructor
    · intro hmid
      by_cases hcc : buildReplyCc original cfg.FromAddr cfg.Username all = []
      · refine ⟨?_, ⟨[original.MessageID], ?_, by simp⟩⟩ <;>
          simp [hcc, hmid, applyOptions, WithCC, WithInReplyTo, WithReferences,
            buildMessage, setHeader, getHeader]
      · refine ⟨?_, ⟨[original.MessageID], ?_, by simp⟩⟩ <;>
          simp [hcc, hmid, applyOptions, WithCC, WithInReplyTo, WithReferences,
            buildMessage, setHeader, getHeader]
    · intro hmid
      by_cases hcc : buildReplyCc original cfg.FromAddr cfg.Username all = []
      · constructor <;>
          simp [hcc, hmid, applyOptions, WithCC, WithInReplyTo, WithReferences,
            buildMessage, setHeader, getHeader]
      · constructor <;>
          simp [hcc, hmid, applyOptions, WithCC, WithInReplyTo, WithReferences,
            buildMessage, setHeader, getHeader]

/-- Witness for C5 at a concrete input. -/
theorem c5_threading_headers_witness :
    ∃ m, replyRun { Host := "h", Username := "u", Password := "p", FromAddr := "me@x" }
        (fun _ => .ok ()) { FromAddr := "a@x", MessageID := "<id1@x>", Subject := "Hi" }
        "ok" false true = .ok m ∧
      getHeader m "In-Reply-To" = some ["<id1@x>"] ∧
      ∃ refs, getHeader m "References" = some refs ∧ "<id1@x>" ∈ refs := by
  obtain ⟨h1, h2⟩ :=
    (c5_threading_headers { Host := "h", Username := "u", Password := "p", FromAddr := "me@x" }
      (fun _ => .ok ()) { FromAddr := "a@x", MessageID := "<id1@x>", Subject := "Hi" }
      "ok" false true _ rfl).1 (by decide)
  exact ⟨_, rfl, h1, h2⟩

/-! ## C8: `ListMessages` limit and empty-mailbox behaviour -/

/-- C8: for every `limit > 0`, `ListMessages` issues exactly one fetch whose
UID set is a suffix of the search result of length `min limit (number of
results)` — i.e. the last `limit` UIDs when the search returns more than
`limit`, and all of them otherwise; for `limit ≤ 0` all UIDs are requested;
and when the selected mailbox holds zero messages, or the search returns no
UIDs, `ListMessages` returns an empty message list and no error without
issuing any fetch. -/
theorem c8_list_messages_limit (srv : ImapServer) (cfg : IMAPConfig)
    (limit : Int) (unreadOnly : Bool) (n : Nat) (uids : List Nat)
    (hd : srv.dial = .ok ()) (hl : srv.login = .ok ())
    (hs : srv.selectMb cfg.Mailbox = .ok n) :
    (n = 0 → listMessages srv cfg limit unreadOnly =
      (.ok [], [.dial, .login, .selectMb cfg.Mailbox])) ∧
    (n ≠ 0 → srv.uidSearch unreadOnly = .ok uids → uids = [] →
      listMessages srv cfg limit unreadOnly =
        (.ok [], [.dial, .login, .selectMb cfg.Mailbox, .search])) ∧
    (n ≠ 0 → srv.uidSearch unreadOnly = .ok uids → uids ≠ [] →
      ∃ req, fetchReqs (listMessages srv cfg limit unreadOnly).2 = [req] ∧
        req <:+ uids ∧
        (0 < limit → (req.length : Int) = min limit (uids.length : Int)) ∧
        (limit ≤ 0 → req = uids)) := by
  refine ⟨?_, ?_, ?_⟩
  · intro h0
    subst h0
    simp [listMessages, connectR, hd, hl, hs]
  · intro hn hse hue
    subst hue
    simp [listMessages, connectR, hd, hl, hs, hn, hse]
  · intro hn hse hue
    have htr : (listMessages srv cfg limit unreadOnly).2 =
        [.dial, .login, .selectMb cfg.Mailbox, .search,
         .fetch (if limit > 0 ∧ (uids.length : Int) > limit then
            uids.drop (uids.length - limit.toNat) else uids)] := by
      simp only [listMessages, connectR, hd, hl, hs, hse]
      rw [if_neg hn, if_neg hue]
      split <;> rfl
    refine ⟨if limit > 0 ∧ (uids.length : Int) > limit then
        uids.drop (uids.length - limit.toNat) else uids, ?_, ?_, ?_, ?_⟩
    · rw [htr]
      rfl
    · split
      · exact List.drop_suffix _ _
      · exact List.suffix_refl _
    · intro hpos
      by_cases hgt : (uids.length : Int) > limit
      · rw [if_pos ⟨hpos, hgt⟩, List.length_drop]
        have h1 : limit.toNat ≤ uids.length := by omega
        omega
      · rw [if_neg (by tauto)]
        omega
    · intro hle
      rw [if_neg (by omega)]

/-- Witness for C8 at a concrete input (three UIDs found, limit two). -/
theorem c8_list_messages_limit_witness :
    ∃ req, fetchReqs (listMessages
        { dial := .ok (), login := .ok (), selectMb := fun _ => .ok 3,
          uidSearch := fun _ => .ok [1, 2, 3], uidFetch := fun _ => ([], none) }
        {} 2 false).2 = [req] ∧
      req <:+ [1, 2, 3] ∧
      ((0 : Int) < 2 → (req.length : Int) = min 2 ((([1, 2, 3] : List Nat)).length : Int)) ∧
      ((2 : Int) ≤ 0 → req = [1, 2, 3]) :=
  (c8_list_messages_limit
    { dial := .ok (), login := .ok (), selectMb := fun _ => .ok 3,
      uidSearch := fun _ => .ok [1, 2, 3], uidFetch := fun _ => ([], none) }
    {} 2 false 3 [1, 2, 3] rfl rfl rfl).2.2 (by decide) rfl (by decide)

/-! ## C2: errors are surfaced, never swallowed and never retried -/

/-- C2 (amended): every failing underlying library call in `Connect`,
`ListMessages`, `ReadMessage` and `Send` makes the operation return an error
that wraps the underlying failure, and each operation calls each underlying
library operation at most once (its call trace is a prefix of the
one-of-each-call sequence, so nothing is retried) — *except* that an error
reported by `extractBody` while parsing/reading a message body inside
`ReadMessage` is not propagated: the message is returned with an empty body
and no error (the `if err == nil` guard at reader.go lines 176-181 silently
drops it). -/
theorem c2_errors_surfaced (srv : ImapServer) (cfg : IMAPConfig) :
    (∀ e, srv.dial = .error e →
      connectR srv = (.err ("failed to connect to IMAP server: " ++ e), [.dial])) ∧
    (∀ e, srv.dial = .ok () → srv.login = .error e →
      connectR srv = (.err ("failed to login: " ++ e), [.dial, .login])) ∧
    (∀ e limit u, srv.dial = .ok () → srv.login = .ok () →
      srv.selectMb cfg.Mailbox = .error e →
      (listMessages srv cfg limit u).1 = .err ("failed to select mailbox: " ++ e)) ∧
    (∀ e limit u n, srv.dial = .ok () → srv.login = .ok () →
      srv.selectMb cfg.Mailbox = .ok n → n ≠ 0 → srv.uidSearch u = .error e →
      (listMessages srv cfg limit u).1 = .err ("failed to search messages: " ++ e)) ∧
    (∀ e limit u n uids, srv.dial = .ok () → srv.login = .ok () →
      srv.selectMb cfg.Mailbox = .ok n → n ≠ 0 → srv.uidSearch u = .ok uids →
      uids ≠ [] → (∀ us, (srv.uidFetch us).2 = some e) →
      (listMessages srv cfg limit u).1 = .err ("failed to fetch messages: " ++ e)) ∧
    (∀ e uid, srv.dial = .ok () → srv.login = .ok () →
      srv.selectMb cfg.Mailbox = .error e →
      (readMessage srv cfg uid).1 = .err ("failed to select mailbox: " ++ e)) ∧
    (∀ e uid n, srv.dial = .ok () → srv.login = .ok () →
      srv.selectMb cfg.Mailbox = .ok n → srv.uidFetch [uid] = ([], some e) →
      (readMessage srv cfg uid).1 = .err ("failed to fetch message: " ++ e)) ∧
    (∀ (scfg : SMTPConfig) (toA : List String) (subject body : String)
      (opts : List SendOption) (e : Err) (d : GomailMessage → Except Err Unit),
      toA ≠ [] → (∀ m, d m = .error e) →
      Send scfg d toA subject body opts = .error ("failed to send email: " ++ e)) ∧
    (∀ uid msg e n, srv.dial = .ok () → srv.login = .ok () →
      srv.selectMb cfg.Mailbox = .ok n →
      srv.uidFetch [uid] = ([msg], none) →
      msg.Body = some (.unparsable (.error e)) →
      (readMessage srv cfg uid).1 = .ok (convertMessage msg true) ∧
      (convertMessage msg true).Body = "") ∧
    (∀ limit u, ∃ us, (listMessages srv cfg limit u).2 <+:
      [.dial, .login, .selectMb cfg.Mailbox, .search, .fetch us]) ∧
    (∀ uid, (readMessage srv cfg uid).2 <+:
      [.dial, .login, .selectMb cfg.Mailbox, .fetch [uid]]) := by
  refine ⟨?_, ?_, ?_, ?_, ?_, ?_, ?_, ?_, ?_, ?_, ?_⟩
  · intro e he
    simp [connectR, he]
  · intro e hd hl
    simp [connectR, hd, hl]
  · intro e limit u hd hl hs
    simp [listMessages, connectR, hd, hl, hs]
  · intro e limit u n hd hl hs hn hq
    simp [listMessages, connectR, hd, hl, hs, hn, hq]
  · intro e limit u n uids hd hl hs hn hq hue hf
    simp [listMessages, connectR, hd, hl, hs, hn, hq, hue, hf]
  · intro e uid hd hl hs
    simp [readMessage, connectR, hd, hl, hs]
  · intro e uid n hd hl hs hf
    simp [readMessage, connectR, hd, hl, hs, hf, drainLoop]
  · intro scfg toA subject body opts e d htoA hde
    simp [Send, htoA, hde]
  · intro uid msg e n hd hl hs hf hbody
    constructor
    · simp [readMessage, connectR, hd, hl, hs, hf, drainLoop, processFetched,
        hbody, extractBody]
    · exact convertMessage_Body msg true
  · intro limit u
    rcases hd : srv.dial with e | u0
    · refine ⟨[], ?_⟩
      simp [listMessages, connectR, hd]
    · rcases hl : srv.login with e | u1
      · refine ⟨[], ?_⟩
        simp [listMessages, connectR, hd, hl]
      · rcases hs : srv.selectMb cfg.Mailbox with e | n
        · refine ⟨[], ?_⟩
          simp [listMessages, connectR, hd, hl, hs]
        · by_cases hn : n = 0
          · refine ⟨[], ?_⟩
            simp [listMessages, connectR, hd, hl, hs, hn]
          · rcases hq : srv.uidSearch u with e | uids
            · refine ⟨[], ?_⟩
              simp [listMessages, connectR, hd, hl, hs, hn, hq]
            · by_cases hue : uids = []
              · refine ⟨[], ?_⟩
                simp [listMessages, connectR, hd, hl, hs, hn, hq, hue]
              · refine ⟨if limit > 0 ∧ (uids.length : Int) > limit then
                    uids.drop (uids.length - limit.toNat) else uids, ?_⟩
                simp only [listMessages, connectR, hd, hl, hs, hq]
                rw [if_neg hn, if_neg hue]
                split <;> exact ⟨[], by simp⟩
  · intro uid
    rcases hd : srv.dial with e | u0
    · simp [readMessage, connectR, hd]
    · rcases hl : srv.login with e | u1
      · simp [readMessage, connectR, hd, hl]
      · rcases hs : srv.selectMb cfg.Mailbox with e | n
        · simp [readMessage, connectR, hd, hl, hs]
        · simp only [readMessage, connectR, hd, hl, hs]
          repeat' split
          all_goals exact ⟨[], by simp⟩

/-- C2 counterexample: with a server where connection, login, select and
fetch all succeed, delivering one message whose body section is unparsable
and whose raw read fails with "read error", `ReadMessage` returns the
message — with an empty body and *no error*: the underlying read failure is
dropped rather than surfaced, refuting the claim as stated. -/
theorem c2_counterexample :
    (readMessage
      { dial := .ok (), login := .ok (), selectMb := fun _ => .ok 1,
        uidSearch := fun _ => .ok [1],
        uidFetch := fun _ =>
          ([{ Uid := 7, Body := some (.unparsable (.error "read error")) }], none) }
      {} 7).1 = .ok { UID := 7 } := by
  rfl

/-- Witness for C2 at concrete inputs. -/
theorem c2_errors_surfaced_witness :
    connectR
      { dial := .error "dial down", login := .ok (), selectMb := fun _ => .ok 0,
        uidSearch := fun _ => .ok [], uidFetch := fun _ => ([], none) } =
      (.err ("failed to connect to IMAP server: " ++ "dial down"), [.dial]) ∧
    Send {} (fun _ => .error "smtp down") ["r@x"] "s" "b" [] =
      .error ("failed to send email: " ++ "smtp down") ∧
    (readMessage
      { dial := .ok (), login := .ok (), selectMb := fun _ => .ok 1,
        uidSearch := fun _ => .ok [1],
        uidFetch := fun _ =>
          ([{ Uid := 7, Body := some (.unparsable (.error "boom")) }], none) }
      {} 7).1 =
      .ok (convertMessage { Uid := 7, Body := some (.unparsable (.error "boom")) } true) := by
  obtain ⟨hc, -, -, -, -, -, -, -, -, -, -⟩ := c2_errors_surfaced
    { dial := .error "dial down", login := .ok (), selectMb := fun _ => .ok 0,
      uidSearch := fun _ => .ok [], uidFetch := fun _ => ([], none) } {}
  obtain ⟨-, -, -, -, -, -, -, hsend, hsw, -, -⟩ := c2_errors_surfaced
    { dial := .ok (), login := .ok (), selectMb := fun _ => .ok 1,
      uidSearch := fun _ => .ok [1],
      uidFetch := fun _ =>
        ([{ Uid := 7, Body := some (.unparsable (.error "boom")) }], none) } {}
  refine ⟨hc "dial down" rfl, ?_, ?_⟩
  · exact hsend {} ["r@x"] "s" "b" [] "smtp down" (fun _ => .error "smtp down")
      (by simp) (fun _ => rfl)
  · exact (hsw 7 { Uid := 7, Body := some (.unparsable (.error "boom")) } "boom" 1
      rfl rfl rfl rfl rfl).1

/-! ## C9: attachment limits are enforced before sending -/

theorem checkAttachments_error (fs : FileSystem) (l : List String)
    (hbad : ∃ a ∈ l, (∃ e, fs.stat a = .error e) ∨
      (∃ sz, fs.stat a = .ok sz ∧ maxFileSize < sz)) :
    ∃ e, checkAttachments fs l = .error e := by
  induction l with
  | nil => simp at hbad
  | cons a as ih =>
    rcases hres : checkAttachments fs (a :: as) with e0 | u0
    · exact ⟨e0, rfl⟩
    · exfalso
      rcases hbad with ⟨x, hx, hprop⟩
      rcases List.mem_cons.mp hx with rfl | hmem
      · rcases hprop with ⟨e, he⟩ | ⟨sz, hsz, hgt⟩
        · simp [checkAttachments, he] at hres
        · simp [checkAttachments, hsz, hgt] at hres
      · rcases hst : fs.stat a with e | sz
        · simp [checkAttachments, hst] at hres
        · by_cases hgt : sz > maxFileSize
          · simp [checkAttachments, hst, hgt] at hres
          · obtain ⟨e2, he2⟩ := ih ⟨x, hmem, hprop⟩
            simp [checkAttachments, hst, hgt, he2] at hres

set_option maxHeartbeats 1600000 in
/-- C9: for every invocation of the send command, if more than five
attachment paths are given, or any attachment file has size strictly
greater than 10 MiB, or any attachment file cannot be accessed, the command
returns an error and the SMTP sender is never invoked. -/
theorem c9_attachment_limits (cfg : SMTPConfig) (fs : FileSystem)
    (d : GomailMessage → Except Err Unit) (fl : SendFlags)
    (hbad : maxAttachments < fl.attachments.length ∨
      ∃ a ∈ fl.attachments, (∃ e, fs.stat a = .error e) ∨
        (∃ sz, fs.stat a = .ok sz ∧ maxFileSize < sz)) :
    (∃ e, (runSendCmd cfg fs d fl).1 = .error e) ∧
    (runSendCmd cfg fs d fl).2 = false := by
  have hbad2 : ¬ fl.attachments.length > maxAttachments →
      ∃ e, checkAttachments fs fl.attachments = .error e := by
    intro hnot
    rcases hbad with hlen | h2
    · exact absurd hlen hnot
    · exact checkAttachments_error fs fl.attachments h2
  have key : ∃ e, runSendCmd cfg fs d fl = (.error e, false) := by
    unfold runSendCmd
    repeat' first
      | exact ⟨_, rfl⟩
      | split
      | dsimp only
    all_goals exfalso
    all_goals obtain ⟨e2, he2⟩ := hbad2 (by assumption)
    all_goals simp_all
  obtain ⟨e, he⟩ := key
  rw [he]
  exact ⟨⟨e, rfl⟩, rfl⟩

/-- Witness for C9 at a concrete input (six attachments). -/
theorem c9_attachment_limits_witness :
    (∃ e, (runSendCmd { Host := "h", Username := "u", Password := "p" }
        { readFile := fun _ => .ok "x", stat := fun _ => .ok 1 } (fun _ => .ok ())
        { toAddrs := ["r@x"], subject := "s", body := "b",
          attachments := ["a1", "a2", "a3", "a4", "a5", "a6"] }).1 = .error e) ∧
    (runSendCmd { Host := "h", Username := "u", Password := "p" }
        { readFile := fun _ => .ok "x", stat := fun _ => .ok 1 } (fun _ => .ok ())
        { toAddrs := ["r@x"], subject := "s", body := "b",
          attachments := ["a1", "a2", "a3", "a4", "a5", "a6"] }).2 = false :=
  c9_attachment_limits { Host := "h", Username := "u", Password := "p" }
    { readFile := fun _ => .ok "x", stat := fun _ => .ok 1 } (fun _ => .ok ())
    { toAddrs := ["r@x"], subject := "s", body := "b",
      attachments := ["a1", "a2", "a3", "a4", "a5", "a6"] }
    (Or.inl (by decide))

end Ghostmail
